import Mathlib

/-
Verification of the patch_rebaser repository (src/patch_rebaser/patch_rebaser.py).

The core under study is the Rebaser class: its rebase-and-publish protocol,
the tag-based race detection, the bounded retry loop, and the automated
recovery of `.gitreview` rebase conflicts, together with the branch-name
resolver `find_patches_branch` and `get_release_from_branch_name`.

Modelling choices (shallow embedding):
  * Every external git operation the code performs is recorded as an `Event`
    in a trace; the values the code reads back from git (whether the remote
    tip still equals the safety tag, whether the local branch is ahead,
    which rebase invocations fail and whether the skip-and-regenerate fix
    succeeds) are supplied by an `Env` oracle indexed by attempt number.
  * The mutable field `self.max_retries` is threaded through the recursion
    as an explicit `retries` parameter of `rebaseLoop`; the public entry
    point `Rebaser.rebase_and_update_remote` starts it at `r.max_retries`.
  * Python string primitives used by the source (`in`, `str.split('-')`,
    `'-'.join`) are re-implemented structurally over `List Char` so that
    every definition evaluates by kernel reduction.
-/

/- Python `a in s` (substring containment), over char lists. -/

def startsWithChars : List Char → List Char → Bool
  | [], _ => true
  | _ :: _, [] => false
  | a :: as, b :: bs => a == b && startsWithChars as bs

def occursInChars (needle : List Char) : List Char → Bool
  | [] => needle.isEmpty
  | c :: cs => startsWithChars needle (c :: cs) || occursInChars needle cs

def pyIn (needle s : String) : Bool := occursInChars needle.data s.data

/- Python `s.split('-')` and `'-'.join(parts)`. -/

def splitChars (sep : Char) : List Char → List (List Char)
  | [] => [[]]
  | c :: cs =>
    let rest := splitChars sep cs
    if c == sep then [] :: rest
    else
      match rest with
      | [] => [[c]]
      | h :: t => (c :: h) :: t

def splitOnDash (s : String) : List String := (splitChars '-' s.data).map String.mk

def joinWithDash : List String → String
  | [] => ""
  | [s] => s
  | s :: rest => s ++ "-" ++ joinWithDash rest

/- Trace events: one constructor per external (git / logging / sleeping)
   operation the Rebaser performs.  Boolean results the code reads back
   are recorded inside the corresponding check events. -/

inductive Event where
  | fetch (remote : String)
  | branchCreate (branch base : String) (reset_if_exists : Bool)
  | tagCreate (tag target : String)
  | tagDelete (tag : String)
  | rebaseToHash (branch commit : String)
  | rebaseSkip
  | rebuildGitreview (branch : String)
  | abortRebase
  | sleep (seconds : Nat)
  | logInfo
  | logWarning
  | logError
  | commitSame (a b : String) (result : Bool)
  | cherryCheck (upstream head : String) (result : Bool)
  | push (flags : List String) (remote ref : String)
  deriving DecidableEq

inductive Outcome where
  | published
  | nothingToPush
  | gaveUp
  | error (msg : String)
  deriving DecidableEq

/- Oracle for the values the code reads from the repository, indexed by
   attempt number:
     `same i`     — result of `repo.commit.same(tag_name, remote_branch)`
                    at attempt `i` (the post-rebase race check);
     `cherry i`   — result of `repo.branch.cherry_on_head_only(remote_branch, branch)`
                    if attempt `i` publishes;
     `failures i` — the successive failing invocations of
                    `repo.branch.rebase_to_hash` at attempt `i`, each as
                    (exception text, does the skip-and-regenerate fix succeed);
                    after the listed failures the rebase call succeeds. -/

structure Env where
  same : Nat → Bool
  cherry : Nat → Bool
  failures : Nat → List (String × Bool)

/- Rebaser.__init__ (patch_rebaser.py lines 250-276).  The Python default
   argument release='unknown' is modelled by an Option: `none` means the
   caller supplied no release label. -/

structure Rebaser where
  branch : String
  commit : String
  remote : String
  timestamp : String
  tag_name : String
  dev_mode : Bool
  max_retries : Nat
  remote_branch : String
  deriving DecidableEq

def Rebaser.init (branch commit remote timestamp : String)
    (dev_mode : Bool) (max_retries : Nat) (release : Option String) : Rebaser :=
  let rel := release.getD "unknown"
  { branch := branch
    commit := commit
    remote := remote
    timestamp := timestamp
    tag_name := "private-rebaser-" ++ rel ++ "-" ++ timestamp ++ "-previous"
    dev_mode := dev_mode
    max_retries := max_retries
    remote_branch := remote ++ "/" ++ branch }

/- Rebaser.try_automated_rebase_fix (lines 335-352).  Argument `msg` is
   str(exception); `fixOk` is the oracle's verdict on whether the inner
   `git rebase --skip; _rebuild_gitreview` block succeeds.  A failing fix's
   partial side effects inside that block are not modelled beyond the
   attempt itself (the code only logs and returns False). -/

def Rebaser.try_automated_rebase_fix (r : Rebaser) (msg : String) (fixOk : Bool) :
    List Event × Bool :=
  if pyIn ".gitreview" msg then
    if fixOk then
      ([Event.logWarning, Event.rebaseSkip, Event.rebuildGitreview r.branch], true)
    else
      ([Event.logWarning, Event.logError], false)
  else
    ([], false)

/- Rebaser.perform_rebase (lines 321-333): retry `rebase_to_hash` while the
   automated fix succeeds; on an unfixable failure, abort the rebase and
   re-raise the original exception (returned as `some msg`). -/

def Rebaser.perform_rebase (r : Rebaser) : List (String × Bool) → List Event × Option String
  | [] => ([Event.rebaseToHash r.branch r.commit], none)
  | (msg, fixOk) :: rest =>
    let fix := r.try_automated_rebase_fix msg fixOk
    if fix.2 then
      let cont := r.perform_rebase rest
      (Event.rebaseToHash r.branch r.commit :: (fix.1 ++ cont.1), cont.2)
    else
      (Event.rebaseToHash r.branch r.commit :: (fix.1 ++ [Event.logInfo, Event.abortRebase]),
       some msg)

/- Rebaser.update_remote_patches_branch (lines 354-380). -/

def Rebaser.update_remote_patches_branch (r : Rebaser) (cherry : Bool) :
    List Event × Outcome :=
  let chk := [Event.cherryCheck r.remote_branch r.branch cherry]
  if !cherry then
    (chk ++ [Event.tagDelete r.tag_name], Outcome.nothingToPush)
  else if r.dev_mode then
    (chk ++ [Event.logWarning,
             Event.push ["-n"] r.remote r.tag_name,
             Event.push ["-nf"] r.remote r.branch], Outcome.published)
  else
    (chk ++ [Event.logWarning,
             Event.push [] r.remote r.tag_name,
             Event.push ["-f"] r.remote r.branch], Outcome.published)

/- Rebaser.rebase_and_update_remote (lines 278-319).  The mutable
   `self.max_retries` is the explicit `retries` parameter; the recursive
   call `self.rebase_and_update_remote()` after the decrement is the
   recursive call at `retries = n` and attempt index `attempt + 1`. -/

def rebaseLoop (env : Env) (r : Rebaser) : Nat → Nat → List Event × Outcome
  | retries, attempt =>
    let pre := [Event.fetch r.remote,
                Event.branchCreate r.branch r.remote_branch true,
                Event.tagCreate r.tag_name r.remote_branch]
    let reb := r.perform_rebase (env.failures attempt)
    match reb.2 with
    | some msg => (pre ++ reb.1, Outcome.error msg)
    | none =>
      let mid := [Event.fetch r.remote,
                  Event.commitSame r.tag_name r.remote_branch (env.same attempt)]
      if env.same attempt then
        let u := r.update_remote_patches_branch (env.cherry attempt)
        (pre ++ reb.1 ++ mid ++ u.1, u.2)
      else
        match retries with
        | Nat.succ n =>
          let rest := rebaseLoop env r n (attempt + 1)
          (pre ++ reb.1 ++ mid ++
            ([Event.logInfo, Event.sleep 20, Event.tagDelete r.tag_name] ++ rest.1),
           rest.2)
        | 0 => (pre ++ reb.1 ++ mid ++ [Event.logWarning], Outcome.gaveUp)

def Rebaser.rebase_and_update_remote (env : Env) (r : Rebaser) : List Event × Outcome :=
  rebaseLoop env r r.max_retries 0

/- The value of the retry counter at the start of each successive attempt,
   mirroring the control flow of rebaseLoop. -/

def retriesByAttempt (env : Env) (r : Rebaser) : Nat → Nat → List Nat
  | retries, attempt =>
    match (r.perform_rebase (env.failures attempt)).2 with
    | some _ => [retries]
    | none =>
      if env.same attempt then [retries]
      else
        match retries with
        | Nat.succ n => Nat.succ n :: retriesByAttempt env r n (attempt + 1)
        | 0 => [0]

/- find_patches_branch (lines 22-35).  `branch_exists cand` models
   `repo.branch.exists(cand, remote)`.  The while loop pops one segment per
   iteration, so a fuel of `parts.length` is exact. -/

def fpbLoop (branch_exists : String → Bool) (distgit_branch : String) :
    Nat → List String → Option String
  | _, [] => none
  | 0, _ :: _ => none
  | Nat.succ fuel, p :: ps =>
    let branch :=
      if pyIn "trunk" distgit_branch then
        joinWithDash (p :: ps) ++ "-trunk-patches"
      else
        joinWithDash (p :: ps) ++ "-patches"
    if branch_exists branch then some branch
    else fpbLoop branch_exists distgit_branch fuel (p :: ps).dropLast

def find_patches_branch (branch_exists : String → Bool) (distgit_branch : String) :
    Option String :=
  fpbLoop branch_exists distgit_branch (splitOnDash distgit_branch).length
    (splitOnDash distgit_branch)

/- get_release_from_branch_name (lines 88-92): split('-')[1] with an
   IndexError fallback to 'Unknown'. -/

def get_release_from_branch_name (branch_name : String) : String :=
  match splitOnDash branch_name with
  | _ :: x :: _ => x
  | _ => "Unknown"

/- Counting and filtering helpers over traces. -/

def isRebaseCall : Event → Bool
  | .rebaseToHash _ _ => true
  | _ => false

def isPush : Event → Bool
  | .push _ _ _ => true
  | _ => false

def isTagCreate (tag : String) : Event → Bool
  | .tagCreate t _ => t == tag
  | _ => false

def isTagDelete (tag : String) : Event → Bool
  | .tagDelete t => t == tag
  | _ => false

def isAbort : Event → Bool
  | .abortRebase => true
  | _ => false

/- The trace restricted to operations on the safety tag: creations,
   deletions, and pushes whose ref is the tag. -/

inductive TagOp where
  | create
  | delete
  | pushTag
  deriving DecidableEq

def tagOps (tag : String) (t : List Event) : List TagOp :=
  t.filterMap fun e =>
    match e with
    | .tagCreate u _ => if u == tag then some TagOp.create else none
    | .tagDelete u => if u == tag then some TagOp.delete else none
    | .push _ _ ref => if ref == tag then some TagOp.pushTag else none
    | _ => none

/- Modelled from the spec wording of the claimed invariant: what the final
   tag operation must be on each kind of exit. -/

def finalTagOps : Outcome → List TagOp
  | .published => [TagOp.create, TagOp.pushTag]
  | .nothingToPush => [TagOp.create, TagOp.delete]
  | .gaveUp => [TagOp.create]
  | .error _ => [TagOp.create]

/- Decoding of the literal git-push flag strings the code passes, per the
   git command-line interface: a single-dash cluster of short options, or a
   long option.  `-n` is dry-run, `-f` force; pushing the tags reachable
   from the pushed ref is requested by the long options below. -/

def shortFlagCluster (s : String) : Bool :=
  match s.data with
  | '-' :: '-' :: _ => false
  | '-' :: _ :: _ => true
  | _ => false

def flagRequestsDryRun (s : String) : Bool :=
  (shortFlagCluster s && s.data.contains 'n') || s == "--dry-run"

def flagRequestsForce (s : String) : Bool :=
  (shortFlagCluster s && s.data.contains 'f') || s == "--force"

def flagRequestsFollowTags (s : String) : Bool :=
  s == "--follow-tags" || s == "--tags"

structure PushCall where
  dryRun : Bool
  force : Bool
  followTags : Bool
  remote : String
  ref : String
  deriving DecidableEq

def decodePush (flags : List String) (remote ref : String) : PushCall :=
  { dryRun := flags.any flagRequestsDryRun
    force := flags.any flagRequestsForce
    followTags := flags.any flagRequestsFollowTags
    remote := remote
    ref := ref }

def pushCalls (t : List Event) : List PushCall :=
  t.filterMap fun e =>
    match e with
    | .push flags remote ref => some (decodePush flags remote ref)
    | _ => none

/- Modelled from the spec: the candidate list of the Branch Resolver, one
   candidate per segment count from most specific down to one segment, the
   suffix chosen by substring presence of "trunk" in the original
   identifier. -/

def specCandidate (distgit_branch : String) (segs : List String) : String :=
  joinWithDash segs ++
    (if pyIn "trunk" distgit_branch then "-trunk-patches" else "-patches")

def specCandidates (distgit_branch : String) : List String :=
  let parts := splitOnDash distgit_branch
  (List.range parts.length).reverse.map fun i => specCandidate distgit_branch (parts.take (i + 1))

def isPushOf (ref : String) : Event → Bool
  | .push _ _ x => x == ref
  | _ => false

/- Concrete instances for witnesses and counterexamples. -/

def envAlwaysMoved : Env :=
  { same := fun _ => false, cherry := fun _ => true, failures := fun _ => [] }

def envQuiet : Env :=
  { same := fun _ => true, cherry := fun _ => true, failures := fun _ => [] }

def rNoRetry : Rebaser := Rebaser.init "br" "c0ffee" "origin" "20260101" false 0 (some "16.1")

def rTwoRetries : Rebaser := Rebaser.init "br" "c0ffee" "origin" "20260101" false 2 (some "16.1")

def rOneRetry : Rebaser := Rebaser.init "br" "c0ffee" "origin" "20260101" false 1 (some "16.1")

def rReal : Rebaser := Rebaser.init "br" "c0ffee" "origin" "20260101" false 3 (some "16.1")

theorem perform_rebase_nil (r : Rebaser) :
    r.perform_rebase [] = ([Event.rebaseToHash r.branch r.commit], none) := rfl

theorem rebaseLoop_step (env : Env) (r : Rebaser) (retries attempt : Nat)
    (hf : env.failures attempt = []) (hs : env.same attempt = false) :
    rebaseLoop env r retries attempt =
      ([Event.fetch r.remote,
        Event.branchCreate r.branch r.remote_branch true,
        Event.tagCreate r.tag_name r.remote_branch,
        Event.rebaseToHash r.branch r.commit,
        Event.fetch r.remote,
        Event.commitSame r.tag_name r.remote_branch false] ++
        (match retries with
         | Nat.succ n => [Event.logInfo, Event.sleep 20, Event.tagDelete r.tag_name] ++
             (rebaseLoop env r n (attempt + 1)).1
         | 0 => [Event.logWarning]),
       match retries with
       | Nat.succ n => (rebaseLoop env r n (attempt + 1)).2
       | 0 => Outcome.gaveUp) := by
  rw [rebaseLoop]
  rw [hf]
  simp only [perform_rebase_nil, hs]
  cases retries <;> simp

theorem rebaseLoop_publish (env : Env) (r : Rebaser) (retries attempt : Nat)
    (hf : env.failures attempt = []) (hs : env.same attempt = true) :
    rebaseLoop env r retries attempt =
      ([Event.fetch r.remote,
        Event.branchCreate r.branch r.remote_branch true,
        Event.tagCreate r.tag_name r.remote_branch,
        Event.rebaseToHash r.branch r.commit,
        Event.fetch r.remote,
        Event.commitSame r.tag_name r.remote_branch true] ++
        (r.update_remote_patches_branch (env.cherry attempt)).1,
       (r.update_remote_patches_branch (env.cherry attempt)).2) := by
  rw [rebaseLoop]
  rw [hf]
  simp only [perform_rebase_nil, hs]
  simp

theorem counts_adversarial (env : Env) (r : Rebaser)
    (hs : ∀ i, env.same i = false) (hf : ∀ i, env.failures i = []) (n : Nat) :
    ∀ a,
      (rebaseLoop env r n a).1.countP isRebaseCall = n + 1 ∧
      (rebaseLoop env r n a).1.countP (isTagCreate r.tag_name) = n + 1 ∧
      (rebaseLoop env r n a).1.countP (isTagDelete r.tag_name) = n ∧
      (rebaseLoop env r n a).1.countP isPush = 0 := by
  induction n with
  | zero =>
    intro a
    rw [rebaseLoop_step env r 0 a (hf a) (hs a)]
    simp [List.countP_cons, isRebaseCall, isTagCreate, isTagDelete, isPush]
  | succ m ih =>
    intro a
    rw [rebaseLoop_step env r (m + 1) a (hf a) (hs a)]
    have h := ih (a + 1)
    simp only [List.countP_append, List.countP_cons, List.countP_nil]
    simp [isRebaseCall, isTagCreate, isTagDelete, isPush, h.1, h.2.1, h.2.2.1, h.2.2.2]
    omega

theorem retriesByAttempt_adversarial (env : Env) (r : Rebaser)
    (hs : ∀ i, env.same i = false) (hf : ∀ i, env.failures i = []) (n : Nat) :
    ∀ a, retriesByAttempt env r n a = (List.range (n + 1)).reverse := by
  induction n with
  | zero =>
    intro a
    rw [retriesByAttempt]
    rw [hf a]
    simp [perform_rebase_nil, hs a, List.range_succ]
  | succ m ih =>
    intro a
    rw [retriesByAttempt]
    rw [hf a]
    simp only [perform_rebase_nil, hs a]
    simp [ih (a + 1), List.range_succ]

theorem retriesByAttempt_head (env : Env) (r : Rebaser) (n a : Nat) :
    (retriesByAttempt env r n a).head? = some n := by
  cases n with
  | zero =>
    rw [retriesByAttempt]
    cases h : (r.perform_rebase (env.failures a)).2 with
    | some msg => rfl
    | none =>
      cases hs : env.same a with
      | true => simp
      | false => simp
  | succ m =>
    rw [retriesByAttempt]
    cases h : (r.perform_rebase (env.failures a)).2 with
    | some msg => rfl
    | none =>
      cases hs : env.same a with
      | true => simp
      | false => simp

theorem retriesByAttempt_monotone (env : Env) (r : Rebaser) (n : Nat) :
    ∀ a, List.Chain' (fun x y => y ≤ x) (retriesByAttempt env r n a) := by
  induction n with
  | zero =>
    intro a
    rw [retriesByAttempt]
    cases h : (r.perform_rebase (env.failures a)).2 with
    | some msg => simp
    | none =>
      cases hs : env.same a with
      | true => simp
      | false => simp
  | succ m ih =>
    intro a
    rw [retriesByAttempt]
    cases h : (r.perform_rebase (env.failures a)).2 with
    | some msg => simp
    | none =>
      cases hs : env.same a with
      | true => simp
      | false =>
        simp only
        have hh := retriesByAttempt_head env r m (a + 1)
        have hc := ih (a + 1)
        cases hl : retriesByAttempt env r m (a + 1) with
        | nil => rw [hl] at hh; simp at hh
        | cons x xs =>
          rw [hl] at hh hc
          simp only [List.head?_cons, Option.some.injEq] at hh
          subst hh
          exact List.Chain'.cons (by omega) hc

theorem rebaseLoop_error (env : Env) (r : Rebaser) (retries attempt : Nat) (msg : String)
    (he : (r.perform_rebase (env.failures attempt)).2 = some msg) :
    rebaseLoop env r retries attempt =
      ([Event.fetch r.remote,
        Event.branchCreate r.branch r.remote_branch true,
        Event.tagCreate r.tag_name r.remote_branch] ++
        (r.perform_rebase (env.failures attempt)).1,
       Outcome.error msg) := by
  rw [rebaseLoop]
  simp only [he]

theorem tagOps_nil (tag : String) : tagOps tag [] = [] := rfl

theorem tagOps_append (tag : String) (s t : List Event) :
    tagOps tag (s ++ t) = tagOps tag s ++ tagOps tag t := by
  simp [tagOps]

theorem tagOps_tagCreate (tag u x : String) (t : List Event) :
    tagOps tag (Event.tagCreate u x :: t) =
      if u == tag then TagOp.create :: tagOps tag t else tagOps tag t := by
  simp only [tagOps, List.filterMap_cons]
  cases h : u == tag <;> simp [h]

theorem tagOps_tagDelete (tag u : String) (t : List Event) :
    tagOps tag (Event.tagDelete u :: t) =
      if u == tag then TagOp.delete :: tagOps tag t else tagOps tag t := by
  simp only [tagOps, List.filterMap_cons]
  cases h : u == tag <;> simp [h]

theorem tagOps_push (tag : String) (flags : List String) (remote ref : String) (t : List Event) :
    tagOps tag (Event.push flags remote ref :: t) =
      if ref == tag then TagOp.pushTag :: tagOps tag t else tagOps tag t := by
  simp only [tagOps, List.filterMap_cons]
  cases h : ref == tag <;> simp [h]

theorem tagOps_fetch (tag r : String) (t : List Event) :
    tagOps tag (Event.fetch r :: t) = tagOps tag t := rfl

theorem tagOps_branchCreate (tag b c : String) (x : Bool) (t : List Event) :
    tagOps tag (Event.branchCreate b c x :: t) = tagOps tag t := rfl

theorem tagOps_rebaseToHash (tag b c : String) (t : List Event) :
    tagOps tag (Event.rebaseToHash b c :: t) = tagOps tag t := rfl

theorem tagOps_rebaseSkip (tag : String) (t : List Event) :
    tagOps tag (Event.rebaseSkip :: t) = tagOps tag t := rfl

theorem tagOps_rebuild (tag b : String) (t : List Event) :
    tagOps tag (Event.rebuildGitreview b :: t) = tagOps tag t := rfl

theorem tagOps_abort (tag : String) (t : List Event) :
    tagOps tag (Event.abortRebase :: t) = tagOps tag t := rfl

theorem tagOps_sleep (tag : String) (n : Nat) (t : List Event) :
    tagOps tag (Event.sleep n :: t) = tagOps tag t := rfl

theorem tagOps_logInfo (tag : String) (t : List Event) :
    tagOps tag (Event.logInfo :: t) = tagOps tag t := rfl

theorem tagOps_logWarning (tag : String) (t : List Event) :
    tagOps tag (Event.logWarning :: t) = tagOps tag t := rfl

theorem tagOps_logError (tag : String) (t : List Event) :
    tagOps tag (Event.logError :: t) = tagOps tag t := rfl

theorem tagOps_commitSame (tag a b : String) (x : Bool) (t : List Event) :
    tagOps tag (Event.commitSame a b x :: t) = tagOps tag t := rfl

theorem tagOps_cherryCheck (tag a b : String) (x : Bool) (t : List Event) :
    tagOps tag (Event.cherryCheck a b x :: t) = tagOps tag t := rfl

theorem tagOps_fix (tag : String) (r : Rebaser) (msg : String) (b : Bool) :
    tagOps tag (r.try_automated_rebase_fix msg b).1 = [] := by
  unfold Rebaser.try_automated_rebase_fix
  split
  · split <;> rfl
  · rfl

theorem tagOps_perform_rebase (tag : String) (r : Rebaser) (fs : List (String × Bool)) :
    tagOps tag (r.perform_rebase fs).1 = [] := by
  induction fs with
  | nil => rfl
  | cons p rest ih =>
    obtain ⟨msg, fixOk⟩ := p
    simp only [Rebaser.perform_rebase]
    cases hfix : (r.try_automated_rebase_fix msg fixOk).2 <;>
      simp [hfix, tagOps_rebaseToHash, tagOps_append, tagOps_fix, tagOps_logInfo,
            tagOps_abort, tagOps_nil, ih]

theorem tagOps_update (r : Rebaser) (h : (r.branch == r.tag_name) = false) (cherry : Bool) :
    tagOps r.tag_name (r.update_remote_patches_branch cherry).1 =
      (if cherry then [TagOp.pushTag] else [TagOp.delete]) ∧
    (r.update_remote_patches_branch cherry).2 =
      (if cherry then Outcome.published else Outcome.nothingToPush) := by
  unfold Rebaser.update_remote_patches_branch
  cases cherry with
  | false =>
    constructor
    · simp [tagOps_cherryCheck, tagOps_tagDelete, tagOps_nil]
    · simp
  | true =>
    cases hd : r.dev_mode <;>
      constructor <;>
        simp [tagOps_cherryCheck, tagOps_logWarning, tagOps_push, tagOps_nil, h, hd]

theorem tagDiscipline (env : Env) (r : Rebaser) (h : (r.branch == r.tag_name) = false) (n : Nat) :
    ∀ a, ∃ k,
      tagOps r.tag_name (rebaseLoop env r n a).1 =
        (List.replicate k [TagOp.create, TagOp.delete]).flatten ++
          finalTagOps (rebaseLoop env r n a).2 := by
  induction n with
  | zero =>
    intro a
    refine ⟨0, ?_⟩
    rw [rebaseLoop]
    cases he : (r.perform_rebase (env.failures a)).2 with
    | some msg =>
      simp [tagOps_append, tagOps_fetch, tagOps_branchCreate, tagOps_tagCreate,
            tagOps_perform_rebase, tagOps_nil, finalTagOps]
    | none =>
      cases hs : env.same a with
      | true =>
        simp only [hs, if_true]
        have hu := tagOps_update r h (env.cherry a)
        cases hc : env.cherry a <;>
          simp [tagOps_append, tagOps_fetch, tagOps_branchCreate, tagOps_tagCreate,
                tagOps_commitSame, tagOps_perform_rebase, tagOps_nil, hc ▸ hu.1,
                hc ▸ hu.2, finalTagOps]
      | false =>
        simp only [hs, if_false, Bool.false_eq_true]
        simp [tagOps_append, tagOps_fetch, tagOps_branchCreate, tagOps_tagCreate,
              tagOps_commitSame, tagOps_perform_rebase, tagOps_logWarning, tagOps_nil,
              finalTagOps]
  | succ m ih =>
    intro a
    rw [rebaseLoop]
    cases he : (r.perform_rebase (env.failures a)).2 with
    | some msg =>
      refine ⟨0, ?_⟩
      simp [tagOps_append, tagOps_fetch, tagOps_branchCreate, tagOps_tagCreate,
            tagOps_perform_rebase, tagOps_nil, finalTagOps]
    | none =>
      cases hs : env.same a with
      | true =>
        refine ⟨0, ?_⟩
        simp only [hs, if_true]
        have hu := tagOps_update r h (env.cherry a)
        cases hc : env.cherry a <;>
          simp [tagOps_append, tagOps_fetch, tagOps_branchCreate, tagOps_tagCreate,
                tagOps_commitSame, tagOps_perform_rebase, tagOps_nil, hc ▸ hu.1,
                hc ▸ hu.2, finalTagOps]
      | false =>
        obtain ⟨k, hk⟩ := ih (a + 1)
        refine ⟨k + 1, ?_⟩
        simp only [hs, if_false, Bool.false_eq_true]
        simp [tagOps_append, tagOps_fetch, tagOps_branchCreate, tagOps_tagCreate,
              tagOps_commitSame, tagOps_perform_rebase, tagOps_logInfo, tagOps_sleep,
              tagOps_tagDelete, tagOps_nil, hk, List.replicate_succ]


/-- C1 counterexample: with `max_retries = 0` and a remote that moved during the
rebase, the job exits on the give-up path with one safety-tag creation but no
deletion and no push of the tag, so a dangling safety tag is left behind. -/
theorem c1_counterexample :
    ¬ ((Rebaser.rebase_and_update_remote envAlwaysMoved rNoRetry).1.countP
         (isTagCreate rNoRetry.tag_name) =
       (Rebaser.rebase_and_update_remote envAlwaysMoved rNoRetry).1.countP
         (isTagDelete rNoRetry.tag_name) +
       (Rebaser.rebase_and_update_remote envAlwaysMoved rNoRetry).1.countP
         (isPushOf rNoRetry.tag_name)) := by decide

/-- C1 (amended): the safety-tag operations of a whole job strictly alternate
create, delete, create, delete, ... starting with a create, so at most one
safety tag exists at any time and each retry deletes the stale tag before the
next attempt re-creates it; on the publish exit the final tag is the one being
pushed, on the nothing-to-publish exit it is deleted, but on the give-up exit
and on the unrecoverable-rebase-error exit the final tag is left in place,
neither deleted nor pushed. -/
theorem c1_tag_lifecycle (env : Env) (r : Rebaser) (h : (r.branch == r.tag_name) = false) :
    ∃ k,
      tagOps r.tag_name (Rebaser.rebase_and_update_remote env r).1 =
        (List.replicate k [TagOp.create, TagOp.delete]).flatten ++
          finalTagOps (Rebaser.rebase_and_update_remote env r).2 := by
  unfold Rebaser.rebase_and_update_remote
  exact tagDiscipline env r h r.max_retries 0

theorem c1_tag_lifecycle_witness :
    ∃ k,
      tagOps rNoRetry.tag_name (Rebaser.rebase_and_update_remote envAlwaysMoved rNoRetry).1 =
        (List.replicate k [TagOp.create, TagOp.delete]).flatten ++
          finalTagOps (Rebaser.rebase_and_update_remote envAlwaysMoved rNoRetry).2 :=
  c1_tag_lifecycle envAlwaysMoved rNoRetry (by decide)

/-- C2: with a remote that differs from the safety tag on every comparison and
no rebase failures, a job with `max_retries = N` performs exactly N+1 rebase
attempts, creates the safety tag N+1 times, deletes it N times, issues zero
pushes, and the retry counter takes the values N, N-1, ..., 0 across attempts,
a monotonically non-increasing sequence. -/
theorem c2_retry_bound (env : Env) (r : Rebaser)
    (hs : ∀ i, env.same i = false) (hf : ∀ i, env.failures i = []) :
    (Rebaser.rebase_and_update_remote env r).1.countP isRebaseCall = r.max_retries + 1 ∧
    (Rebaser.rebase_and_update_remote env r).1.countP (isTagCreate r.tag_name) =
      r.max_retries + 1 ∧
    (Rebaser.rebase_and_update_remote env r).1.countP (isTagDelete r.tag_name) =
      r.max_retries ∧
    (Rebaser.rebase_and_update_remote env r).1.countP isPush = 0 ∧
    retriesByAttempt env r r.max_retries 0 = (List.range (r.max_retries + 1)).reverse ∧
    List.Chain' (fun x y => y ≤ x) (retriesByAttempt env r r.max_retries 0) := by
  have h := counts_adversarial env r hs hf r.max_retries 0
  exact ⟨h.1, h.2.1, h.2.2.1, h.2.2.2,
    retriesByAttempt_adversarial env r hs hf r.max_retries 0,
    retriesByAttempt_monotone env r r.max_retries 0⟩

theorem c2_retry_bound_witness :
    (Rebaser.rebase_and_update_remote envAlwaysMoved rTwoRetries).1.countP isRebaseCall =
      rTwoRetries.max_retries + 1 ∧
    (Rebaser.rebase_and_update_remote envAlwaysMoved rTwoRetries).1.countP
      (isTagCreate rTwoRetries.tag_name) = rTwoRetries.max_retries + 1 ∧
    (Rebaser.rebase_and_update_remote envAlwaysMoved rTwoRetries).1.countP
      (isTagDelete rTwoRetries.tag_name) = rTwoRetries.max_retries ∧
    (Rebaser.rebase_and_update_remote envAlwaysMoved rTwoRetries).1.countP isPush = 0 ∧
    retriesByAttempt envAlwaysMoved rTwoRetries rTwoRetries.max_retries 0 =
      (List.range (rTwoRetries.max_retries + 1)).reverse ∧
    List.Chain' (fun x y => y ≤ x)
      (retriesByAttempt envAlwaysMoved rTwoRetries rTwoRetries.max_retries 0) :=
  c2_retry_bound envAlwaysMoved rTwoRetries (fun _ => rfl) (fun _ => rfl)

/-- C3: when the post-rebase comparison finds the remote moved and retries
remain, the attempt continues with the fixed 20-unit wait, then the deletion of
the stale safety tag, then a restart of the whole attempt from the first fetch
with the same job identity and the retry counter decremented by one; when no
retries remain the job logs a warning and terminates with the `gaveUp` outcome,
issuing no push, no tag deletion, and leaving the one tag it created in place. -/
theorem c3_retry_and_giveup (env : Env) (r : Rebaser) (n attempt : Nat)
    (hf : env.failures attempt = []) (hs : env.same attempt = false) :
    rebaseLoop env r (Nat.succ n) attempt =
      ([Event.fetch r.remote,
        Event.branchCreate r.branch r.remote_branch true,
        Event.tagCreate r.tag_name r.remote_branch,
        Event.rebaseToHash r.branch r.commit,
        Event.fetch r.remote,
        Event.commitSame r.tag_name r.remote_branch false] ++
        ([Event.logInfo, Event.sleep 20, Event.tagDelete r.tag_name] ++
          (rebaseLoop env r n (attempt + 1)).1),
       (rebaseLoop env r n (attempt + 1)).2) ∧
    rebaseLoop env r 0 attempt =
      ([Event.fetch r.remote,
        Event.branchCreate r.branch r.remote_branch true,
        Event.tagCreate r.tag_name r.remote_branch,
        Event.rebaseToHash r.branch r.commit,
        Event.fetch r.remote,
        Event.commitSame r.tag_name r.remote_branch false] ++
        [Event.logWarning],
       Outcome.gaveUp) ∧
    (rebaseLoop env r 0 attempt).1.countP isPush = 0 ∧
    (rebaseLoop env r 0 attempt).1.countP (isTagDelete r.tag_name) = 0 ∧
    (rebaseLoop env r 0 attempt).1.countP (isTagCreate r.tag_name) = 1 := by
  have h1 := rebaseLoop_step env r (Nat.succ n) attempt hf hs
  have h0 := rebaseLoop_step env r 0 attempt hf hs
  refine ⟨by rw [h1], by rw [h0], ?_, ?_, ?_⟩ <;>
    rw [h0] <;>
      simp [List.countP_append, List.countP_cons, isPush, isTagDelete, isTagCreate]

theorem c3_retry_and_giveup_witness :
    rebaseLoop envAlwaysMoved rOneRetry (Nat.succ 0) 0 =
      ([Event.fetch rOneRetry.remote,
        Event.branchCreate rOneRetry.branch rOneRetry.remote_branch true,
        Event.tagCreate rOneRetry.tag_name rOneRetry.remote_branch,
        Event.rebaseToHash rOneRetry.branch rOneRetry.commit,
        Event.fetch rOneRetry.remote,
        Event.commitSame rOneRetry.tag_name rOneRetry.remote_branch false] ++
        ([Event.logInfo, Event.sleep 20, Event.tagDelete rOneRetry.tag_name] ++
          (rebaseLoop envAlwaysMoved rOneRetry 0 1).1),
       (rebaseLoop envAlwaysMoved rOneRetry 0 1).2) ∧
    rebaseLoop envAlwaysMoved rOneRetry 0 0 =
      ([Event.fetch rOneRetry.remote,
        Event.branchCreate rOneRetry.branch rOneRetry.remote_branch true,
        Event.tagCreate rOneRetry.tag_name rOneRetry.remote_branch,
        Event.rebaseToHash rOneRetry.branch rOneRetry.commit,
        Event.fetch rOneRetry.remote,
        Event.commitSame rOneRetry.tag_name rOneRetry.remote_branch false] ++
        [Event.logWarning],
       Outcome.gaveUp) ∧
    (rebaseLoop envAlwaysMoved rOneRetry 0 0).1.countP isPush = 0 ∧
    (rebaseLoop envAlwaysMoved rOneRetry 0 0).1.countP (isTagDelete rOneRetry.tag_name) = 0 ∧
    (rebaseLoop envAlwaysMoved rOneRetry 0 0).1.countP (isTagCreate rOneRetry.tag_name) = 1 :=
  c3_retry_and_giveup envAlwaysMoved rOneRetry 0 0 rfl rfl

/-- C4: a rebase failure whose text contains '.gitreview' is recovered by
skipping the conflicting patch and regenerating and committing the metadata
file, after which the rebase is re-attempted with no abort; a failure without
that marker, or one whose recovery fails, aborts the in-progress rebase and the
original error text propagates unchanged. -/
theorem c4_rebase_recovery (r : Rebaser) (m₁ m₂ : String) (b : Bool)
    (rest : List (String × Bool))
    (h1 : pyIn ".gitreview" m₁ = true) (h2 : pyIn ".gitreview" m₂ = false) :
    r.perform_rebase ((m₁, true) :: rest) =
      (Event.rebaseToHash r.branch r.commit ::
        ([Event.logWarning, Event.rebaseSkip, Event.rebuildGitreview r.branch] ++
          (r.perform_rebase rest).1),
       (r.perform_rebase rest).2) ∧
    r.perform_rebase ((m₁, false) :: rest) =
      ([Event.rebaseToHash r.branch r.commit, Event.logWarning, Event.logError,
        Event.logInfo, Event.abortRebase], some m₁) ∧
    r.perform_rebase ((m₂, b) :: rest) =
      ([Event.rebaseToHash r.branch r.commit, Event.logInfo, Event.abortRebase],
       some m₂) := by
  refine ⟨?_, ?_, ?_⟩ <;>
    simp [Rebaser.perform_rebase, Rebaser.try_automated_rebase_fix, h1, h2]

theorem c4_rebase_recovery_witness :
    rReal.perform_rebase (("Patch failed to apply: .gitreview", true) :: []) =
      (Event.rebaseToHash rReal.branch rReal.commit ::
        ([Event.logWarning, Event.rebaseSkip, Event.rebuildGitreview rReal.branch] ++
          (rReal.perform_rebase []).1),
       (rReal.perform_rebase []).2) ∧
    rReal.perform_rebase (("Patch failed to apply: .gitreview", false) :: []) =
      ([Event.rebaseToHash rReal.branch rReal.commit, Event.logWarning, Event.logError,
        Event.logInfo, Event.abortRebase], some "Patch failed to apply: .gitreview") ∧
    rReal.perform_rebase (("Patch failed to apply: foo.py", true) :: []) =
      ([Event.rebaseToHash rReal.branch rReal.commit, Event.logInfo, Event.abortRebase],
       some "Patch failed to apply: foo.py") :=
  c4_rebase_recovery rReal "Patch failed to apply: .gitreview" "Patch failed to apply: foo.py"
    true [] (by decide) (by decide)

/-- C5: every attempt executes, in order: fetch the remote; create-or-reset the
local branch to remote/branch; create the safety tag at the remote/branch tip;
rebase; fetch again; compare the tag with the remote/branch tip — and only when
the comparison succeeds does the attempt continue into the publish step. -/
theorem c5_attempt_order (env : Env) (r : Rebaser) (retries attempt : Nat)
    (hf : env.failures attempt = []) :
    rebaseLoop env r retries attempt =
      ([Event.fetch r.remote,
        Event.branchCreate r.branch r.remote_branch true,
        Event.tagCreate r.tag_name r.remote_branch,
        Event.rebaseToHash r.branch r.commit,
        Event.fetch r.remote,
        Event.commitSame r.tag_name r.remote_branch (env.same attempt)] ++
        (if env.same attempt then (r.update_remote_patches_branch (env.cherry attempt)).1
         else
           match retries with
           | Nat.succ n => [Event.logInfo, Event.sleep 20, Event.tagDelete r.tag_name] ++
               (rebaseLoop env r n (attempt + 1)).1
           | 0 => [Event.logWarning]),
       if env.same attempt then (r.update_remote_patches_branch (env.cherry attempt)).2
       else
         match retries with
         | Nat.succ n => (rebaseLoop env r n (attempt + 1)).2
         | 0 => Outcome.gaveUp) := by
  cases hs : env.same attempt with
  | true => rw [rebaseLoop_publish env r retries attempt hf hs]; simp [hs]
  | false => rw [rebaseLoop_step env r retries attempt hf hs]; simp [hs]

theorem c5_attempt_order_witness :
    rebaseLoop envQuiet rReal 3 0 =
      ([Event.fetch rReal.remote,
        Event.branchCreate rReal.branch rReal.remote_branch true,
        Event.tagCreate rReal.tag_name rReal.remote_branch,
        Event.rebaseToHash rReal.branch rReal.commit,
        Event.fetch rReal.remote,
        Event.commitSame rReal.tag_name rReal.remote_branch (envQuiet.same 0)] ++
        (if envQuiet.same 0 then (rReal.update_remote_patches_branch (envQuiet.cherry 0)).1
         else
           match 3 with
           | Nat.succ n => [Event.logInfo, Event.sleep 20, Event.tagDelete rReal.tag_name] ++
               (rebaseLoop envQuiet rReal n 1).1
           | 0 => [Event.logWarning]),
       if envQuiet.same 0 then (rReal.update_remote_patches_branch (envQuiet.cherry 0)).2
       else
         match 3 with
         | Nat.succ n => (rebaseLoop envQuiet rReal n 1).2
         | 0 => Outcome.gaveUp) :=
  c5_attempt_order envQuiet rReal 3 0 rfl

/-- C6: when the remote is unchanged between the two fetches, exactly one
safety tag is created; if the ahead-check reports nothing to publish the tag is
deleted and zero pushes are issued, otherwise exactly one tag push followed by
one branch push is issued and the tag is not deleted. -/
theorem c6_publish_gate (env : Env) (r : Rebaser) (retries attempt : Nat)
    (hf : env.failures attempt = []) (hs : env.same attempt = true) :
    (rebaseLoop env r retries attempt).1.countP (isTagCreate r.tag_name) = 1 ∧
    (env.cherry attempt = false →
      (rebaseLoop env r retries attempt).1.filter isPush = [] ∧
      (rebaseLoop env r retries attempt).1.countP (isTagDelete r.tag_name) = 1 ∧
      (rebaseLoop env r retries attempt).2 = Outcome.nothingToPush) ∧
    (env.cherry attempt = true →
      (rebaseLoop env r retries attempt).1.filter isPush =
        [Event.push (if r.dev_mode then ["-n"] else []) r.remote r.tag_name,
         Event.push (if r.dev_mode then ["-nf"] else ["-f"]) r.remote r.branch] ∧
      (rebaseLoop env r retries attempt).1.countP (isTagDelete r.tag_name) = 0 ∧
      (rebaseLoop env r retries attempt).2 = Outcome.published) := by
  rw [rebaseLoop_publish env r retries attempt hf hs]
  refine ⟨?_, ?_, ?_⟩
  · cases hc : env.cherry attempt <;>
      cases hd : r.dev_mode <;>
        simp [Rebaser.update_remote_patches_branch, hc, hd, List.countP_append,
              List.countP_cons, isTagCreate]
  · intro hc
    cases hd : r.dev_mode <;>
      simp [Rebaser.update_remote_patches_branch, hc, hd, List.countP_append,
            List.countP_cons, List.filter_append, isTagCreate, isTagDelete, isPush]
  · intro hc
    cases hd : r.dev_mode <;>
      simp [Rebaser.update_remote_patches_branch, hc, hd, List.countP_append,
            List.countP_cons, List.filter_append, isTagCreate, isTagDelete, isPush]

theorem c6_publish_gate_witness :
    (rebaseLoop envQuiet rReal 3 0).1.countP (isTagCreate rReal.tag_name) = 1 ∧
    (envQuiet.cherry 0 = false →
      (rebaseLoop envQuiet rReal 3 0).1.filter isPush = [] ∧
      (rebaseLoop envQuiet rReal 3 0).1.countP (isTagDelete rReal.tag_name) = 1 ∧
      (rebaseLoop envQuiet rReal 3 0).2 = Outcome.nothingToPush) ∧
    (envQuiet.cherry 0 = true →
      (rebaseLoop envQuiet rReal 3 0).1.filter isPush =
        [Event.push (if rReal.dev_mode then ["-n"] else []) rReal.remote rReal.tag_name,
         Event.push (if rReal.dev_mode then ["-nf"] else ["-f"]) rReal.remote rReal.branch] ∧
      (rebaseLoop envQuiet rReal 3 0).1.countP (isTagDelete rReal.tag_name) = 0 ∧
      (rebaseLoop envQuiet rReal 3 0).2 = Outcome.published) :=
  c6_publish_gate envQuiet rReal 3 0 rfl rfl

/-- C7 counterexample: in real mode the branch push is issued with the single
flag "-f" — force only; no flag requesting the push of tags reachable from the
pushed branch is passed, contradicting the claim that the branch push always
requests it. -/
theorem c7_counterexample :
    ¬ (∀ c ∈ pushCalls (rReal.update_remote_patches_branch true).1,
        c.ref = rReal.branch → c.followTags = true) := by decide

/-- C7 (amended): every publish is exactly two push calls in the fixed order
tag push then branch push, never combined or reordered; the two modes are
identical in sequence and arguments except that dev mode sets the no-op
(dry-run) flag on both; the branch push requests force, and neither push
requests pushing the tags reachable from the pushed ref. -/
theorem c7_push_pairing (r : Rebaser) :
    pushCalls (r.update_remote_patches_branch true).1 =
      [{ dryRun := r.dev_mode, force := false, followTags := false,
         remote := r.remote, ref := r.tag_name },
       { dryRun := r.dev_mode, force := true, followTags := false,
         remote := r.remote, ref := r.branch }] := by
  cases hd : r.dev_mode <;>
    simp [Rebaser.update_remote_patches_branch, hd, pushCalls, decodePush,
          flagRequestsDryRun, flagRequestsForce, flagRequestsFollowTags,
          shortFlagCluster]

theorem loop_branch_eq (b : String) (segs : List String) :
    (if pyIn "trunk" b then joinWithDash segs ++ "-trunk-patches"
     else joinWithDash segs ++ "-patches") = specCandidate b segs := by
  unfold specCandidate
  cases h : pyIn "trunk" b <;> simp [h]

theorem fpb_aux (ex : String → Bool) (b : String) (n : Nat) :
    ∀ parts : List String, parts.length = n →
      fpbLoop ex b n parts =
        List.find? ex ((List.range n).reverse.map
          (fun i => specCandidate b (parts.take (i + 1)))) := by
  induction n with
  | zero =>
    intro parts h
    have : parts = [] := List.length_eq_zero.mp h
    subst this
    rfl
  | succ m ih =>
    intro parts h
    cases parts with
    | nil => simp at h
    | cons p ps =>
      rw [fpbLoop]
      rw [List.range_succ, List.reverse_append, List.reverse_singleton,
          List.singleton_append, List.map_cons]
      have htake : (p :: ps).take (m + 1) = p :: ps := by
        rw [← h]
        exact List.take_length _
      rw [htake, loop_branch_eq]
      cases hex : ex (specCandidate b (p :: ps)) with
      | true => simp [List.find?_cons, hex]
      | false =>
        simp only [List.find?_cons, hex, Bool.false_eq_true, if_false]
        have hlen : (p :: ps).dropLast.length = m := by
          simp [List.length_dropLast] at h ⊢
          omega
        rw [ih (p :: ps).dropLast hlen]
        congr 1
        apply List.map_congr_left
        intro i hi
        have him : i < m := by
          rw [List.mem_reverse, List.mem_range] at hi
          exact hi
        congr 1
        have hdl : (p :: ps).dropLast = (p :: ps).take m := by
          rw [List.dropLast_eq_take, h]
          simp
        rw [hdl, List.take_take]
        congr 1
        omega

/-- C8: find_patches_branch splits the identifier on '-' and returns the first
candidate, taken from most-specific prefix to least-specific, that exists on
the remote — each candidate being the remaining segments joined with '-' plus
'-trunk-patches' when the original identifier contains 'trunk' and '-patches'
otherwise — and returns none after all prefixes, one per segment count down to
one segment, are exhausted. -/
theorem c8_resolver (branch_exists : String → Bool) (distgit_branch : String) :
    find_patches_branch branch_exists distgit_branch =
      List.find? branch_exists (specCandidates distgit_branch) ∧
    (specCandidates distgit_branch).length = (splitOnDash distgit_branch).length := by
  constructor
  · unfold find_patches_branch specCandidates
    exact fpb_aux branch_exists distgit_branch (splitOnDash distgit_branch).length
      (splitOnDash distgit_branch) rfl
  · simp [specCandidates]

/-- C9 counterexample: constructing a Rebaser with no release label supplied
yields the tag name `private-rebaser-unknown-20250101-previous`, not the
claimed `private-rebaser-20250101-previous` with no release component. -/
theorem c9_counterexample :
    (Rebaser.init "b" "c" "o" "20250101" true 3 none).tag_name ≠
      "private-rebaser-20250101-previous" := by decide

/-- C9 (amended): the safety tag name is
`private-rebaser-<release>-<timestamp>-previous` when a release label is
supplied, and `private-rebaser-unknown-<timestamp>-previous` — the default
release label `unknown` takes the release component's place — when no release
label is supplied. -/
theorem c9_tag_format (branch commit remote ts : String) (dev : Bool) (mr : Nat)
    (rel : String) :
    (Rebaser.init branch commit remote ts dev mr (some rel)).tag_name =
      "private-rebaser-" ++ rel ++ "-" ++ ts ++ "-previous" ∧
    (Rebaser.init branch commit remote ts dev mr none).tag_name =
      "private-rebaser-unknown-" ++ ts ++ "-previous" := by
  constructor
  · rfl
  · show "private-rebaser-" ++ "unknown" ++ "-" ++ ts ++ "-previous" =
      "private-rebaser-unknown-" ++ ts ++ "-previous"
    simp

theorem get_release_eq_getD (s : String) :
    get_release_from_branch_name s = (splitOnDash s).getD 1 "Unknown" := by
  unfold get_release_from_branch_name
  cases h : splitOnDash s with
  | nil => simp
  | cons x xs =>
    cases xs with
    | nil => simp
    | cons y ys => simp

/-- C10: the release label is the second '-'-separated segment of the patches
branch name (e.g. '16.1' from 'rhos-16.1-trunk-patches'), falling back to the
literal 'Unknown' when the name has fewer than two segments, and it is this
value that is embedded in the safety tag name. -/
theorem c10_release_from_branch :
    (∀ s : String,
      get_release_from_branch_name s = (splitOnDash s).getD 1 "Unknown") ∧
    get_release_from_branch_name "rhos-16.1-trunk-patches" = "16.1" ∧
    get_release_from_branch_name "nodash" = "Unknown" ∧
    (∀ (b c r ts : String) (dev : Bool) (mr : Nat) (bn : String),
      (Rebaser.init b c r ts dev mr (some (get_release_from_branch_name bn))).tag_name =
        "private-rebaser-" ++ (splitOnDash bn).getD 1 "Unknown" ++ "-" ++ ts ++
          "-previous") := by
  refine ⟨get_release_eq_getD, by decide, by decide, ?_⟩
  intro b c r ts dev mr bn
  rw [show (Rebaser.init b c r ts dev mr
      (some (get_release_from_branch_name bn))).tag_name =
      "private-rebaser-" ++ get_release_from_branch_name bn ++ "-" ++ ts ++
        "-previous" from rfl]
  rw [get_release_eq_getD]
